import Mathlib

/-!
# Verification of the codespaces proxy core (github-mcp-server)

Shallow embedding of the authenticated proxy layer:
  * `RegisterCodespacesRoutes` (routing over `http.ServeMux`, including the
    mux's path canonicalisation/redirect step),
  * `extractToken`, `ensureScopes`, `writeProxyResponse`,
  * the six request handlers (`handleListCodespaces`, ... ),
  * the upstream client's `GetTokenScopes` and `doRaw` pass-through.

Go strings are modelled as Lean `String`; the Go standard-library string
helpers used by the source (`strings.Fields`, `TrimPrefix`, `HasSuffix`,
`TrimSuffix`, `TrimSpace`, `ToLower`, `bytes.Split`) are modelled below on
the ASCII fragment (the fast path Go itself takes for ASCII input; header
values and paths in all claims are ASCII).

Upstream HTTP traffic is modelled by an oracle carrying the response (or
transport error) for the scope-fetch call and for the action call; each
handler additionally returns the number of upstream HTTP calls it issued.
-/

namespace Ghmcp

/-- Go `unicode.IsSpace` restricted to ASCII: exactly the byte set of the
ASCII fast path of `strings.Fields` / `strings.TrimSpace`. -/
def isGoSpace (c : Char) : Bool :=
  c = ' ' || c = '\t' || c = '\n' || c = '\x0b' || c = '\x0c' || c = '\r'

/-- Go `strings.Fields`: split around runs of whitespace, no empty fields. -/
def goFields (s : String) : List String :=
  ((s.data.splitOnP isGoSpace).filter (· ≠ [])).map List.asString

/-- Go `strings.TrimSpace` (ASCII fragment): drop leading and trailing space. -/
def goTrimSpace (s : String) : String :=
  (((s.data.dropWhile isGoSpace).reverse.dropWhile isGoSpace).reverse).asString

/-- Go `strings.ToLower` (ASCII fragment). -/
def goToLower (s : String) : String :=
  (s.data.map Char.toLower).asString

/-- Go `strings.HasPrefix`. -/
def goHasPrefix (s pre : String) : Bool :=
  pre.data.isPrefixOf s.data

/-- Go `strings.TrimPrefix`. -/
def goTrimPrefix (s pre : String) : String :=
  if goHasPrefix s pre then (s.data.drop pre.data.length).asString else s

/-- Go `strings.HasSuffix`. -/
def goHasSuffix (s suf : String) : Bool :=
  suf.data.isSuffixOf s.data

/-- Go `strings.TrimSuffix`. -/
def goTrimSuffix (s suf : String) : String :=
  if goHasSuffix s suf then (s.data.take (s.data.length - suf.data.length)).asString
  else s

/-- Go `bytes.Split` with a one-byte separator (used with `","`). -/
def goSplitComma (s : String) : List String :=
  (s.data.splitOn ',').map List.asString

/--
`extractToken` (source file `part_000`):

```go
auth := r.Header.Get("Authorization")
if auth == "" { auth = r.Header.Get("X-Github-Token") }
if auth == "" { return "" }
parts := strings.Fields(auth)
if len(parts) == 1 { return parts[0] }
return parts[1]
```

The final `parts[1]` is an unguarded index: when `strings.Fields` returns
zero fields (header made only of whitespace) it panics with an
index-out-of-range. The embedding is total and returns `none` exactly on
that out-of-bounds access.
-/
def extractToken (authHdr xGithubTokenHdr : String) : Option String :=
  let auth := if authHdr = "" then xGithubTokenHdr else authHdr
  if auth = "" then some ""
  else
    match goFields auth with
    | [p] => some p
    | _ :: p :: _ => some p
    | [] => none

/-! ## Upstream HTTP model -/

/-- An upstream HTTP response: status code, header list, raw body bytes
(bodies are byte strings; we carry them as `String`). -/
structure HttpResp where
  status : Nat
  headers : List (String × String)
  body : String
deriving DecidableEq, Repr

/-- `http.Header.Get`: both stored keys and the lookup key go through MIME
canonicalisation in Go, so lookup is case-insensitive; modelled by comparing
lowercased keys. Returns `""` when the header is absent. -/
def headerGet (hs : List (String × String)) (k : String) : String :=
  match hs.find? (fun p => goToLower p.1 == goToLower k) with
  | some p => p.2
  | none => ""

/-- A transport-level error from `http.Client.Do` / body read. -/
abbrev TransportErr := Unit

/--
Upstream oracle for one inbound request: the wire outcome of the scope-fetch
call (`GET /`, issued by `GetTokenScopes`) and of the action call
(`ListCodespaces`/`GetCodespace`/...; `doRaw` in `codespaces_client.go`
forwards `resp.StatusCode`, `resp.Header`, and the body bytes unmodified).
`Except.error` is a transport failure.
-/
structure UpstreamOracle where
  scopeResp : Except TransportErr HttpResp
  actionResp : Except TransportErr HttpResp

/--
`CodespacesClient.GetTokenScopes` (`codespaces_client.go`):

```go
status, hdr, _, err := c.doRaw(req)          // modelled by `resp`
if err != nil { return nil, err }
if status >= 400 { return nil, fmt.Errorf(...) }
raw := hdr.Get("X-OAuth-Scopes")
if raw == "" { return []string{}, nil }      // empty, non-nil slice
var scopes []string                          // nil slice
for _, s := range bytes.Split([]byte(raw), []byte(",")) {
    scopes = append(scopes, string(bytes.TrimSpace(s)))
}
return scopes, nil
```

Go slices distinguish nil from empty; the result slice is `Option (List
String)` with `none` for the nil slice. `append` on a possibly-nil slice is
modelled by `fun acc s => some (acc.getD [] ++ [s])`.
-/
def GetTokenScopes (resp : Except TransportErr HttpResp) :
    Except TransportErr (Option (List String)) :=
  match resp with
  | .error e => .error e
  | .ok r =>
    if 400 ≤ r.status then .error ()
    else
      let raw := headerGet r.headers "X-OAuth-Scopes"
      if raw = "" then .ok (some [])
      else
        .ok ((goSplitComma raw).foldl
          (fun acc s => some (acc.getD [] ++ [goTrimSpace s])) none)

/-- Result of the scope gate, `ensureScopes`. `insufficient` is the typed
`*InsufficientScopeError`, carrying `Required` and `Granted`; `fetchErr` is
any other error propagated from `GetTokenScopes`. -/
inductive ScopeCheck where
  | ok
  | insufficient (required granted : List String)
  | fetchErr
deriving DecidableEq, Repr

/--
`ensureScopes` (`part_000`), applied to the already-returned result of
`client.GetTokenScopes`:

```go
scopes, err := client.GetTokenScopes(ctx, token)
if err != nil { return err }
have := map[string]bool{}
for _, s := range scopes { have[strings.ToLower(strings.TrimSpace(s))] = true }
for _, r := range required {
    if !have[strings.ToLower(r)] {
        return &InsufficientScopeError{Required: required, Granted: scopes}
    }
}
return nil
```

Note the asymmetry: granted scopes are trimmed and lowercased, required
scopes are only lowercased. Ranging over a nil slice iterates zero times
(`Option.getD []`).
-/
def ensureScopes (fetched : Except TransportErr (Option (List String)))
    (required : List String) : ScopeCheck :=
  match fetched with
  | .error _ => .fetchErr
  | .ok scopesOpt =>
    let scopes := scopesOpt.getD []
    let haveSet := scopes.map (fun s => goToLower (goTrimSpace s))
    if required.all (fun r => haveSet.contains (goToLower r)) then .ok
    else .insufficient required scopes

/-! ## Outbound response model -/

/-- What one handler writes back to the caller. -/
structure HttpOut where
  status : Nat
  contentType : String
  body : String
deriving DecidableEq, Repr

/-- `http.Error(w, msg, code)`: plain-text content type, `msg` plus a
trailing newline as body. -/
def httpError (msg : String) (code : Nat) : HttpOut :=
  { status := code, contentType := "text/plain; charset=utf-8", body := msg ++ "\n" }

/--
`writeProxyResponse` (`part_000`):

```go
if ct := hdr.Get("Content-Type"); ct != "" { w.Header().Set("Content-Type", ct) }
else { w.Header().Set("Content-Type", "application/json") }
w.WriteHeader(status)
if len(body) > 0 { _, _ = w.Write(body) }
```
-/
def writeProxyResponse (status : Nat) (hdr : List (String × String))
    (body : String) : HttpOut :=
  let ct := headerGet hdr "Content-Type"
  { status := status
    contentType := if ct ≠ "" then ct else "application/json"
    body := body }

/-! ## JSON syntax acceptance (`encoding/json.Unmarshal` into `interface{}`)

`json.Unmarshal(bs, &body)` with an `interface{}` target succeeds exactly
when `bs` is one complete JSON value with only JSON whitespace around it.
The validator below accepts that grammar (objects, arrays, strings with
escapes, numbers, `true`/`false`/`null`). -/

/-- JSON whitespace per RFC 8259 / `encoding/json`. -/
def jsonWs (c : Char) : Bool :=
  c = ' ' || c = '\t' || c = '\n' || c = '\r'

def skipJsonWs (cs : List Char) : List Char := cs.dropWhile jsonWs

def isHexDigitChar (c : Char) : Bool :=
  c.isDigit || ('a' ≤ c && c ≤ 'f') || ('A' ≤ c && c ≤ 'F')

/-- Parse the remainder of a JSON string after the opening quote; returns
the input after the closing quote. -/
def parseJsonString : List Char → Option (List Char)
  | [] => none
  | '"' :: rest => some rest
  | '\\' :: 'u' :: a :: b :: c :: d :: rest =>
    if isHexDigitChar a && isHexDigitChar b && isHexDigitChar c && isHexDigitChar d then
      parseJsonString rest
    else none
  | '\\' :: e :: rest =>
    if e = '"' || e = '\\' || e = '/' || e = 'b' || e = 'f' || e = 'n'
        || e = 'r' || e = 't' then
      parseJsonString rest
    else none
  | c :: rest => if 32 ≤ c.toNat then parseJsonString rest else none

/-- Parse a JSON number at the head of the input. -/
def parseJsonNumber (cs : List Char) : Option (List Char) :=
  let cs1 := match cs with | '-' :: r => r | _ => cs
  let intRest : Option (List Char) :=
    match cs1 with
    | '0' :: r => some r
    | c :: r => if c.isDigit then some (r.dropWhile Char.isDigit) else none
    | [] => none
  match intRest with
  | none => none
  | some r2 =>
    let fracRest : Option (List Char) :=
      match r2 with
      | '.' :: d :: r => if d.isDigit then some (r.dropWhile Char.isDigit) else none
      | '.' :: [] => none
      | _ => some r2
    match fracRest with
    | none => none
    | some r3 =>
      match r3 with
      | e :: rest =>
        if e = 'e' || e = 'E' then
          let rest2 := match rest with | '+' :: r => r | '-' :: r => r | _ => rest
          match rest2 with
          | d :: r => if d.isDigit then some (r.dropWhile Char.isDigit) else none
          | [] => none
        else some r3
      | [] => some r3

mutual

/-- Parse one JSON value at the head of the input (fuel-indexed; the
callers supply `length + 1` fuel, enough since every recursion step
consumes input). -/
def parseJsonValue : Nat → List Char → Option (List Char)
  | 0, _ => none
  | Nat.succ fuel, cs =>
    match cs with
    | [] => none
    | '"' :: r => parseJsonString r
    | '{' :: r =>
      match skipJsonWs r with
      | '}' :: r2 => some r2
      | r2 => parseJsonObjectItems fuel r2
    | '[' :: r =>
      match skipJsonWs r with
      | ']' :: r2 => some r2
      | r2 => parseJsonArrayItems fuel r2
    | _ =>
      if "true".data.isPrefixOf cs then some (cs.drop 4)
      else if "false".data.isPrefixOf cs then some (cs.drop 5)
      else if "null".data.isPrefixOf cs then some (cs.drop 4)
      else parseJsonNumber cs

/-- Parse `string : value` members from the head of the input up to and
including the closing brace. -/
def parseJsonObjectItems : Nat → List Char → Option (List Char)
  | 0, _ => none
  | Nat.succ fuel, cs =>
    match cs with
    | '"' :: r =>
      match parseJsonString r with
      | none => none
      | some r1 =>
        match skipJsonWs r1 with
        | ':' :: r2 =>
          match parseJsonValue fuel (skipJsonWs r2) with
          | none => none
          | some r3 =>
            match skipJsonWs r3 with
            | ',' :: r4 => parseJsonObjectItems fuel (skipJsonWs r4)
            | '}' :: r4 => some r4
            | _ => none
        | _ => none
    | _ => none

/-- Parse array elements from the head of the input up to and including the
closing bracket. -/
def parseJsonArrayItems : Nat → List Char → Option (List Char)
  | 0, _ => none
  | Nat.succ fuel, cs =>
    match parseJsonValue fuel cs with
    | none => none
    | some r =>
      match skipJsonWs r with
      | ',' :: r2 => parseJsonArrayItems fuel (skipJsonWs r2)
      | ']' :: r2 => some r2
      | _ => none

end

/-- `json.Unmarshal(bs, &body) == nil`: `bs` is one complete JSON value
surrounded only by JSON whitespace. -/
def jsonUnmarshalOk (s : String) : Bool :=
  match parseJsonValue (s.data.length + 1) (skipJsonWs s.data) with
  | some rest => (skipJsonWs rest).isEmpty
  | none => false

/-! ## The six request handlers

Each handler returns what it writes to the caller together with the number
of upstream HTTP calls it issued (the scope fetch inside
`ensureScopes`/`GetTokenScopes` counts as one call; the action call as a
second one). `HandlerResult.panicked` is the Go runtime panic raised by
`extractToken`'s out-of-bounds index, in which case no response is
written. -/

inductive HandlerResult where
  | panicked
  | wrote (o : HttpOut)
deriving DecidableEq, Repr

/-- `handleListCodespaces` (`part_000`). -/
def handleListCodespaces (u : UpstreamOracle) (authHdr xghHdr : String) :
    HandlerResult × Nat :=
  match extractToken authHdr xghHdr with
  | none => (.panicked, 0)
  | some token =>
    if token = "" then (.wrote (httpError "missing Authorization token" 401), 0)
    else
      match ensureScopes (GetTokenScopes u.scopeResp) ["codespaces"] with
      | .insufficient _ _ =>
        (.wrote (httpError "insufficient token scopes: requires codespaces" 403), 1)
      | .fetchErr =>
        (.wrote (httpError "failed to validate token scopes" 500), 1)
      | .ok =>
        match u.actionResp with
        | .error _ => (.wrote (httpError "failed to call GitHub" 502), 2)
        | .ok resp =>
          (.wrote (writeProxyResponse resp.status resp.headers resp.body), 2)

/-- `handleGetCodespace` (`part_000`). The resource name only selects the
upstream path; the oracle already carries that call's outcome. -/
def handleGetCodespace (u : UpstreamOracle) (authHdr xghHdr : String)
    (_name : String) : HandlerResult × Nat :=
  match extractToken authHdr xghHdr with
  | none => (.panicked, 0)
  | some token =>
    if token = "" then (.wrote (httpError "missing Authorization token" 401), 0)
    else
      match ensureScopes (GetTokenScopes u.scopeResp) ["codespaces"] with
      | .insufficient _ _ =>
        (.wrote (httpError "insufficient token scopes: requires codespaces" 403), 1)
      | .fetchErr =>
        (.wrote (httpError "failed to validate token scopes" 500), 1)
      | .ok =>
        match u.actionResp with
        | .error _ => (.wrote (httpError "failed to call GitHub" 502), 2)
        | .ok resp =>
          (.wrote (writeProxyResponse resp.status resp.headers resp.body), 2)

/-- `handleCreateCodespace` (`part_000`): after the scope gate, reads the
inbound body (`io.ReadAll`, whose failure is modelled by
`bodyRead = .error`) and, when non-empty, requires it to unmarshal as
JSON before issuing the create call. -/
def handleCreateCodespace (u : UpstreamOracle) (authHdr xghHdr : String)
    (bodyRead : Except TransportErr String) : HandlerResult × Nat :=
  match extractToken authHdr xghHdr with
  | none => (.panicked, 0)
  | some token =>
    if token = "" then (.wrote (httpError "missing Authorization token" 401), 0)
    else
      match ensureScopes (GetTokenScopes u.scopeResp) ["codespaces"] with
      | .insufficient _ _ =>
        (.wrote (httpError "insufficient token scopes: requires codespaces" 403), 1)
      | .fetchErr =>
        (.wrote (httpError "failed to validate token scopes" 500), 1)
      | .ok =>
        match bodyRead with
        | .error _ => (.wrote (httpError "invalid request body" 400), 1)
        | .ok bs =>
          if 0 < bs.data.length && !jsonUnmarshalOk bs then
            (.wrote (httpError "invalid json body" 400), 1)
          else
            match u.actionResp with
            | .error _ => (.wrote (httpError "failed to call GitHub" 502), 2)
            | .ok resp =>
              (.wrote (writeProxyResponse resp.status resp.headers resp.body), 2)

/-- `handleStartCodespace` (`part_000`). -/
def handleStartCodespace (u : UpstreamOracle) (authHdr xghHdr : String)
    (_name : String) : HandlerResult × Nat :=
  match extractToken authHdr xghHdr with
  | none => (.panicked, 0)
  | some token =>
    if token = "" then (.wrote (httpError "missing Authorization token" 401), 0)
    else
      match ensureScopes (GetTokenScopes u.scopeResp) ["codespaces"] with
      | .insufficient _ _ =>
        (.wrote (httpError "insufficient token scopes: requires codespaces" 403), 1)
      | .fetchErr =>
        (.wrote (httpError "failed to validate token scopes" 500), 1)
      | .ok =>
        match u.actionResp with
        | .error _ => (.wrote (httpError "failed to call GitHub" 502), 2)
        | .ok resp =>
          (.wrote (writeProxyResponse resp.status resp.headers resp.body), 2)

/-- `handleStopCodespace` (`part_000`). -/
def handleStopCodespace (u : UpstreamOracle) (authHdr xghHdr : String)
    (_name : String) : HandlerResult × Nat :=
  match extractToken authHdr xghHdr with
  | none => (.panicked, 0)
  | some token =>
    if token = "" then (.wrote (httpError "missing Authorization token" 401), 0)
    else
      match ensureScopes (GetTokenScopes u.scopeResp) ["codespaces"] with
      | .insufficient _ _ =>
        (.wrote (httpError "insufficient token scopes: requires codespaces" 403), 1)
      | .fetchErr =>
        (.wrote (httpError "failed to validate token scopes" 500), 1)
      | .ok =>
        match u.actionResp with
        | .error _ => (.wrote (httpError "failed to call GitHub" 502), 2)
        | .ok resp =>
          (.wrote (writeProxyResponse resp.status resp.headers resp.body), 2)

/-- `handleDeleteCodespace` (`part_000`). -/
def handleDeleteCodespace (u : UpstreamOracle) (authHdr xghHdr : String)
    (_name : String) : HandlerResult × Nat :=
  match extractToken authHdr xghHdr with
  | none => (.panicked, 0)
  | some token =>
    if token = "" then (.wrote (httpError "missing Authorization token" 401), 0)
    else
      match ensureScopes (GetTokenScopes u.scopeResp) ["codespaces"] with
      | .insufficient _ _ =>
        (.wrote (httpError "insufficient token scopes: requires codespaces" 403), 1)
      | .fetchErr =>
        (.wrote (httpError "failed to validate token scopes" 500), 1)
      | .ok =>
        match u.actionResp with
        | .error _ => (.wrote (httpError "failed to call GitHub" 502), 2)
        | .ok resp =>
          (.wrote (writeProxyResponse resp.status resp.headers resp.body), 2)

/-! ## Routing (`RegisterCodespacesRoutes` over `http.ServeMux`)

`RegisterCodespacesRoutes` registers the exact pattern `/api/codespaces`
and the subtree pattern `/api/codespaces/`. `http.ServeMux` canonicalises
the request path first (`net/http.cleanPath` = `path.Clean` plus restored
trailing slash) and answers non-canonical paths with a 301 redirect instead
of dispatching; `CONNECT` requests skip that step. The mux's
redirect-to-path-slash rule never fires here because the slashless pattern
`/api/codespaces` is itself registered. -/

/-- Segment processing of Go `path.Clean`: drop empty and `.` segments,
let `..` pop the previous real segment (or survive at the front of a
relative path). -/
def cleanSegs (rooted : Bool) (segs : List (List Char)) : List (List Char) :=
  segs.foldl
    (fun acc seg =>
      if seg = [] || seg = ['.'] then acc
      else if seg = ['.', '.'] then
        if acc ≠ [] && acc.getLast? ≠ some ['.', '.'] then acc.dropLast
        else if rooted then acc
        else acc ++ [['.', '.']]
      else acc ++ [seg])
    []

/-- Go `path.Clean`. -/
def pathGoClean (p : String) : String :=
  if p = "" then "."
  else
    let rooted := p.data.head? = some '/'
    let body := List.intercalate ['/'] (cleanSegs rooted (p.data.splitOn '/'))
    if rooted then
      if body = [] then "/" else ('/' :: body).asString
    else
      if body = [] then "." else body.asString

/-- `net/http.cleanPath`: `path.Clean` on the (rooted) path, restoring one
trailing slash when the input had one and the result is not `/`. -/
def cleanPath (p : String) : String :=
  if p = "" then "/"
  else
    let p1 := if p.data.head? = some '/' then p else ('/' :: p.data).asString
    let np := pathGoClean p1
    if p1.data.getLast? = some '/' && np ≠ "/" then (np.data ++ ['/']).asString
    else np

/-- Where the mux plus `RegisterCodespacesRoutes` sends one inbound
request: one of the six actions (with the extracted resource name), an
inline rejection, a canonicalisation redirect, or the mux 404. -/
inductive RouteResult where
  | list
  | create
  | get (name : String)
  | delete (name : String)
  | start (name : String)
  | stop (name : String)
  | methodNotAllowed
  | badRequest
  | redirect (loc : String)
  | notFound
deriving DecidableEq, Repr

/-- The handler registered on the exact pattern `/api/codespaces`:
`GET` lists, `POST` creates, anything else is 405. -/
def collectionRoute (method : String) : RouteResult :=
  if method = "GET" then .list
  else if method = "POST" then .create
  else .methodNotAllowed

/-- The handler registered on the subtree pattern `/api/codespaces/`:

```go
rest := strings.TrimPrefix(r.URL.Path, "/api/codespaces/")
if rest == "" { 400 "missing codespace name" }
if strings.HasSuffix(rest, "/start") && r.Method == POST { start(TrimSuffix(rest, "/start")) }
if strings.HasSuffix(rest, "/stop") && r.Method == POST { stop(TrimSuffix(rest, "/stop")) }
switch r.Method { GET: get(rest); DELETE: delete(rest); default: 405 }
```
-/
def itemRoute (method path : String) : RouteResult :=
  let rest := goTrimPrefix path "/api/codespaces/"
  if rest = "" then .badRequest
  else if goHasSuffix rest "/start" && method = "POST" then
    .start (goTrimSuffix rest "/start")
  else if goHasSuffix rest "/stop" && method = "POST" then
    .stop (goTrimSuffix rest "/stop")
  else if method = "GET" then .get rest
  else if method = "DELETE" then .delete rest
  else .methodNotAllowed

/-- Pattern matching of the mux over the two registered patterns (exact
match wins; otherwise the longest registered subtree prefix; otherwise
the mux's own 404). -/
def matchPatterns (method path : String) : RouteResult :=
  if path = "/api/codespaces" then collectionRoute method
  else if goHasPrefix path "/api/codespaces/" then itemRoute method path
  else .notFound

/-- Full mux dispatch: canonicalise-and-redirect (skipped for `CONNECT`),
then pattern match. -/
def muxRoute (method path : String) : RouteResult :=
  if method = "CONNECT" then matchPatterns method path
  else if cleanPath path ≠ path then .redirect (cleanPath path)
  else matchPatterns method path

end Ghmcp

namespace Ghmcp

example : extractToken "Bearer X" "" = some "X" := by decide
example : extractToken " " "" = none := by decide
example : goFields " a  b " = ["a", "b"] := by decide
example : GetTokenScopes (.ok ⟨200, [("X-OAuth-Scopes", " repo, codespaces ")], ""⟩)
    = .ok (some ["repo", "codespaces"]) := by rfl
example : ensureScopes (.ok (some [" CodeSpaces "])) ["codespaces"] = .ok := by decide
example : ensureScopes (.ok (some ["codespaces"])) ["codespaces "]
    = .insufficient ["codespaces "] ["codespaces"] := by decide
example : jsonUnmarshalOk "\x7bnot json" = false := by decide
example : jsonUnmarshalOk " \x7b\"a\": [1, 2.5e3, null], \"b\": \"x\\n\"\x7d " = true := by
  decide
example : jsonUnmarshalOk "" = false := by decide
example : jsonUnmarshalOk "01" = false := by decide
example : cleanPath "/api/codespaces//start" = "/api/codespaces/start" := by decide
example : cleanPath "/api/codespaces/" = "/api/codespaces/" := by decide
example : muxRoute "POST" "/api/codespaces/my-cs/start" = .start "my-cs" := by decide
example : muxRoute "POST" "/api/codespaces/my-cs" = .methodNotAllowed := by decide
example : muxRoute "GET" "/api/codespaces/my-cs" = .get "my-cs" := by decide
example : muxRoute "GET" "/api/codespaces" = .list := by decide
example : muxRoute "PATCH" "/api/codespaces" = .methodNotAllowed := by decide
example : muxRoute "DELETE" "/api/codespaces/" = .badRequest := by decide
example : muxRoute "POST" "/api/codespaces//start"
    = .redirect "/api/codespaces/start" := by decide

/-! ## Claim theorems -/

/-- Helper: `goFields` of the empty string has no fields. -/
theorem goFields_empty : goFields "" = [] := by decide

/--
C9: Token extraction maps the header value `"X"` to token `"X"`, the header
value `"Bearer X"` to token `"X"` (in the two-part scheme+value form only
the second part is used), and an empty header (with the fallback header
also empty) to the empty token.
-/
theorem extractToken_spec :
    extractToken "X" "" = some "X" ∧
    extractToken "Bearer X" "" = some "X" ∧
    extractToken "" "" = some "" ∧
    ∀ authHdr xghHdr a b l,
      goFields (if authHdr = "" then xghHdr else authHdr) = a :: b :: l →
      extractToken authHdr xghHdr = some b := by
  refine ⟨by decide, by decide, by decide, ?_⟩
  intro authHdr xghHdr a b l h
  unfold extractToken
  set auth := if authHdr = "" then xghHdr else authHdr with hauth
  have hne : ¬ auth = "" := by
    intro he
    rw [he, goFields_empty] at h
    exact List.noConfusion h
  rw [if_neg hne, h]

/-- C9 witness: the two-part clause at the concrete header `"Bearer X"`. -/
theorem extractToken_spec_witness : extractToken "Bearer X" "" = some "X" :=
  extractToken_spec.2.2.2 "Bearer X" "" "Bearer" "X" [] (by decide)

/--
C10: On the header value `" "` (non-empty, all whitespace), `strings.Fields`
returns zero fields and `extractToken` then indexes `parts[1]` of the empty
slice: the out-of-bounds branch (`none` in the total embedding) is
reachable, so `extractToken` is not safe over all header strings.
-/
theorem extractToken_whitespace_out_of_bounds :
    goFields " " = [] ∧ extractToken " " "" = none := by decide

/--
C1: With both the `Authorization` and `X-Github-Token` headers empty, every
one of the six handlers writes a 401 (`http.Error` with "missing
Authorization token") and issues zero upstream HTTP calls, for every
upstream oracle, resource name, and create body.
-/
theorem handlers_unauthenticated_zero_upstream_calls :
    ∀ (u : UpstreamOracle) (name : String) (bodyRead : Except TransportErr String),
      handleListCodespaces u "" ""
        = (.wrote (httpError "missing Authorization token" 401), 0) ∧
      handleGetCodespace u "" "" name
        = (.wrote (httpError "missing Authorization token" 401), 0) ∧
      handleCreateCodespace u "" "" bodyRead
        = (.wrote (httpError "missing Authorization token" 401), 0) ∧
      handleStartCodespace u "" "" name
        = (.wrote (httpError "missing Authorization token" 401), 0) ∧
      handleStopCodespace u "" "" name
        = (.wrote (httpError "missing Authorization token" 401), 0) ∧
      handleDeleteCodespace u "" "" name
        = (.wrote (httpError "missing Authorization token" 401), 0) := by
  intro u name bodyRead
  exact ⟨rfl, rfl, rfl, rfl, rfl, rfl⟩

/--
C4 counterexample: the gate's comparison is NOT whitespace-trimmed on the
required side. With granted scopes `["codespaces"]` and required scopes
`["codespaces "]` (trailing blank), the two sides are equal after trimming
and lowercasing both, yet `ensureScopes` reports insufficient scope instead
of success.
-/
theorem ensureScopes_required_not_trimmed :
    goToLower (goTrimSpace "codespaces ")
        ∈ ["codespaces"].map (fun s => goToLower (goTrimSpace s)) ∧
    ensureScopes (.ok (some ["codespaces"])) ["codespaces "]
      = .insufficient ["codespaces "] ["codespaces"] := by decide

/--
C4 amended: the membership comparison lowercases both sides but trims
whitespace only on the granted side; in particular granted `" CodeSpaces "`
satisfies required `"codespaces"`, and whenever some required scope is
absent under that comparison the gate returns the `InsufficientScope`
outcome carrying both the required and the granted scope sets.
-/
theorem ensureScopes_membership :
    ensureScopes (.ok (some [" CodeSpaces "])) ["codespaces"] = .ok ∧
    ∀ (scopesOpt : Option (List String)) (required : List String),
      (ensureScopes (.ok scopesOpt) required
          = .insufficient required (scopesOpt.getD []) ↔
        ∃ r ∈ required, goToLower r
          ∉ (scopesOpt.getD []).map (fun s => goToLower (goTrimSpace s))) ∧
      (ensureScopes (.ok scopesOpt) required = .ok ↔
        ∀ r ∈ required, goToLower r
          ∈ (scopesOpt.getD []).map (fun s => goToLower (goTrimSpace s))) := by
  refine ⟨by decide, ?_⟩
  intro scopesOpt required
  have hred : ensureScopes (.ok scopesOpt) required =
      if (required.all fun r =>
          ((scopesOpt.getD []).map fun s => goToLower (goTrimSpace s)).contains
            (goToLower r)) = true
      then .ok else .insufficient required (scopesOpt.getD []) := rfl
  rw [hred]
  constructor
  · constructor
    · intro h
      by_cases hall : required.all (fun r =>
          ((scopesOpt.getD []).map (fun s => goToLower (goTrimSpace s))).contains
            (goToLower r)) = true
      · rw [if_pos hall] at h
        exact ScopeCheck.noConfusion h
      · rw [List.all_eq_true] at hall
        push_neg at hall
        obtain ⟨r, hr, hnc⟩ := hall
        refine ⟨r, hr, ?_⟩
        simpa using hnc
    · intro ⟨r, hr, hnc⟩
      have hall : ¬ required.all (fun r =>
          ((scopesOpt.getD []).map (fun s => goToLower (goTrimSpace s))).contains
            (goToLower r)) = true := by
        rw [List.all_eq_true]
        intro hf
        exact hnc (by simpa using hf r hr)
      rw [if_neg hall]
  · constructor
    · intro h
      by_cases hall : required.all (fun r =>
          ((scopesOpt.getD []).map (fun s => goToLower (goTrimSpace s))).contains
            (goToLower r)) = true
      · rw [List.all_eq_true] at hall
        intro r hr
        simpa using hall r hr
      · rw [if_neg hall] at h
        exact ScopeCheck.noConfusion h
    · intro h
      have hall : required.all (fun r =>
          ((scopesOpt.getD []).map (fun s => goToLower (goTrimSpace s))).contains
            (goToLower r)) = true := by
        rw [List.all_eq_true]
        intro r hr
        simpa using h r hr
      rw [if_pos hall]

/-- C4 amended witness: with granted `["repo"]` and required `["codespaces"]`,
the required scope is absent under the comparison, and the gate returns
`InsufficientScope` carrying both sets. -/
theorem ensureScopes_membership_witness :
    ensureScopes (.ok (some ["repo"])) ["codespaces"]
      = .insufficient ["codespaces"] ["repo"] :=
  (ensureScopes_membership.2 (some ["repo"]) ["codespaces"]).1.mpr
    ⟨"codespaces", by decide, by decide⟩

/-- Helper: the Go append loop over a non-nil accumulator builds the map. -/
theorem foldl_append_trim (ps : List String) (l : List String) :
    ps.foldl (fun acc s => some (acc.getD [] ++ [goTrimSpace s])) (some l)
      = some (l ++ ps.map goTrimSpace) := by
  induction ps generalizing l with
  | nil => simp
  | cons p ps ih => simp [ih]

/-- Helper: `goSplitComma` never returns the empty list. -/
theorem goSplitComma_ne_nil (s : String) : goSplitComma s ≠ [] := by
  unfold goSplitComma List.splitOn
  intro h
  rw [List.map_eq_nil_iff] at h
  exact List.splitOnP_ne_nil _ _ h

/-- Helper: reduction of `GetTokenScopes` on a delivered response. -/
theorem GetTokenScopes_ok_red (r : HttpResp) :
    GetTokenScopes (.ok r) =
      if 400 ≤ r.status then .error ()
      else if headerGet r.headers "X-OAuth-Scopes" = "" then .ok (some [])
      else .ok ((goSplitComma (headerGet r.headers "X-OAuth-Scopes")).foldl
        (fun acc s => some (acc.getD [] ++ [goTrimSpace s])) none) := rfl

/--
C8: `GetTokenScopes` fails for every upstream response with status ≥ 400
(and on transport error); on success it returns the scope list obtained by
splitting the `X-OAuth-Scopes` header value on commas and trimming
whitespace around each entry, and it returns an empty non-nil slice
(`some []`, never the nil slice `none`) when that header is absent.
-/
theorem GetTokenScopes_spec :
    (∀ e, GetTokenScopes (.error e) = .error e) ∧
    (∀ r : HttpResp, 400 ≤ r.status → GetTokenScopes (.ok r) = .error ()) ∧
    (∀ r : HttpResp, r.status < 400 →
      headerGet r.headers "X-OAuth-Scopes" = "" →
      GetTokenScopes (.ok r) = .ok (some [])) ∧
    (∀ r : HttpResp, r.status < 400 →
      headerGet r.headers "X-OAuth-Scopes" ≠ "" →
      GetTokenScopes (.ok r) = .ok (some
        (((headerGet r.headers "X-OAuth-Scopes").data.splitOn ',').map
          (fun seg => goTrimSpace seg.asString)))) ∧
    (∀ resp v, GetTokenScopes resp = .ok v → v ≠ none) := by
  refine ⟨fun e => rfl, ?_, ?_, ?_, ?_⟩
  · intro r h
    rw [GetTokenScopes_ok_red, if_pos h]
  · intro r hlt hraw
    rw [GetTokenScopes_ok_red, if_neg (by omega), if_pos hraw]
  · intro r hlt hraw
    rw [GetTokenScopes_ok_red, if_neg (by omega), if_neg hraw]
    obtain ⟨p, ps, hps⟩ := List.exists_cons_of_ne_nil
      (goSplitComma_ne_nil (headerGet r.headers "X-OAuth-Scopes"))
    have hmap : ((headerGet r.headers "X-OAuth-Scopes").data.splitOn ',').map
        (fun seg => goTrimSpace seg.asString)
        = (goSplitComma (headerGet r.headers "X-OAuth-Scopes")).map goTrimSpace := by
      unfold goSplitComma
      rw [List.map_map]
      rfl
    rw [hmap, hps]
    simp [foldl_append_trim]
  · intro resp v h
    match resp with
    | .error e => exact Except.noConfusion h
    | .ok r =>
      rw [GetTokenScopes_ok_red] at h
      by_cases h4 : 400 ≤ r.status
      · rw [if_pos h4] at h
        exact Except.noConfusion h
      · rw [if_neg h4] at h
        by_cases hraw : headerGet r.headers "X-OAuth-Scopes" = ""
        · rw [if_pos hraw] at h
          cases h
          exact Option.noConfusion
        · rw [if_neg hraw] at h
          obtain ⟨p, ps, hps⟩ := List.exists_cons_of_ne_nil
            (goSplitComma_ne_nil (headerGet r.headers "X-OAuth-Scopes"))
          rw [hps] at h
          rw [show ((p :: ps).foldl
              (fun acc s => some (acc.getD [] ++ [goTrimSpace s])) none)
            = (ps.foldl (fun acc s => some (acc.getD [] ++ [goTrimSpace s]))
                (some [goTrimSpace p])) from rfl, foldl_append_trim] at h
          cases h
          exact Option.noConfusion

/-- C8 witness: the status-≥-400 clause at status 404, the header-absent
clause at an empty header set, and the split-and-trim clause at
`" repo , codespaces"`. -/
theorem GetTokenScopes_spec_witness :
    GetTokenScopes (.ok ⟨404, [], ""⟩) = .error () ∧
    GetTokenScopes (.ok ⟨200, [], ""⟩) = .ok (some []) ∧
    GetTokenScopes (.ok ⟨200, [("X-OAuth-Scopes", " repo , codespaces")], ""⟩)
      = .ok (some ((" repo , codespaces".data.splitOn ',').map
          (fun seg => goTrimSpace seg.asString))) := by
  refine ⟨GetTokenScopes_spec.2.1 ⟨404, [], ""⟩ (by decide),
    GetTokenScopes_spec.2.2.1 ⟨200, [], ""⟩ (by decide) (by decide), ?_⟩
  have h := GetTokenScopes_spec.2.2.2.1
    ⟨200, [("X-OAuth-Scopes", " repo , codespaces")], ""⟩ (by decide) (by decide)
  simpa using h

/--
C5: For every action, once a non-empty token was extracted, the three
failure kinds map to distinct caller-visible statuses and are never
conflated: an `InsufficientScope` result from the scope gate yields 403
with a message naming the required `codespaces` scope; any other
scope-fetch error yields 500 with a generic message; a transport error on
the action call itself yields 502 with a generic message.
-/
theorem failure_status_mapping :
    ∀ (u : UpstreamOracle) (authHdr xghHdr token name : String)
      (bodyRead : Except TransportErr String) (req gr : List String),
      extractToken authHdr xghHdr = some token → token ≠ "" →
      ((ensureScopes (GetTokenScopes u.scopeResp) ["codespaces"]
          = .insufficient req gr →
        handleListCodespaces u authHdr xghHdr
          = (.wrote (httpError "insufficient token scopes: requires codespaces" 403), 1) ∧
        handleGetCodespace u authHdr xghHdr name
          = (.wrote (httpError "insufficient token scopes: requires codespaces" 403), 1) ∧
        handleCreateCodespace u authHdr xghHdr bodyRead
          = (.wrote (httpError "insufficient token scopes: requires codespaces" 403), 1) ∧
        handleStartCodespace u authHdr xghHdr name
          = (.wrote (httpError "insufficient token scopes: requires codespaces" 403), 1) ∧
        handleStopCodespace u authHdr xghHdr name
          = (.wrote (httpError "insufficient token scopes: requires codespaces" 403), 1) ∧
        handleDeleteCodespace u authHdr xghHdr name
          = (.wrote (httpError "insufficient token scopes: requires codespaces" 403), 1)) ∧
      (ensureScopes (GetTokenScopes u.scopeResp) ["codespaces"] = .fetchErr →
        handleListCodespaces u authHdr xghHdr
          = (.wrote (httpError "failed to validate token scopes" 500), 1) ∧
        handleGetCodespace u authHdr xghHdr name
          = (.wrote (httpError "failed to validate token scopes" 500), 1) ∧
        handleCreateCodespace u authHdr xghHdr bodyRead
          = (.wrote (httpError "failed to validate token scopes" 500), 1) ∧
        handleStartCodespace u authHdr xghHdr name
          = (.wrote (httpError "failed to validate token scopes" 500), 1) ∧
        handleStopCodespace u authHdr xghHdr name
          = (.wrote (httpError "failed to validate token scopes" 500), 1) ∧
        handleDeleteCodespace u authHdr xghHdr name
          = (.wrote (httpError "failed to validate token scopes" 500), 1)) ∧
      (ensureScopes (GetTokenScopes u.scopeResp) ["codespaces"] = .ok →
        u.actionResp = .error () →
        handleListCodespaces u authHdr xghHdr
          = (.wrote (httpError "failed to call GitHub" 502), 2) ∧
        handleGetCodespace u authHdr xghHdr name
          = (.wrote (httpError "failed to call GitHub" 502), 2) ∧
        handleStartCodespace u authHdr xghHdr name
          = (.wrote (httpError "failed to call GitHub" 502), 2) ∧
        handleStopCodespace u authHdr xghHdr name
          = (.wrote (httpError "failed to call GitHub" 502), 2) ∧
        handleDeleteCodespace u authHdr xghHdr name
          = (.wrote (httpError "failed to call GitHub" 502), 2) ∧
        (∀ bs, bodyRead = .ok bs →
          (bs.data.length = 0 ∨ jsonUnmarshalOk bs = true) →
          handleCreateCodespace u authHdr xghHdr bodyRead
            = (.wrote (httpError "failed to call GitHub" 502), 2)))) := by
  intro u authHdr xghHdr token name bodyRead req gr hext htok
  refine ⟨?_, ?_, ?_⟩
  · intro hscope
    refine ⟨?_, ?_, ?_, ?_, ?_, ?_⟩ <;>
      simp [handleListCodespaces, handleGetCodespace, handleCreateCodespace,
        handleStartCodespace, handleStopCodespace, handleDeleteCodespace,
        hext, htok, hscope]
  · intro hscope
    refine ⟨?_, ?_, ?_, ?_, ?_, ?_⟩ <;>
      simp [handleListCodespaces, handleGetCodespace, handleCreateCodespace,
        handleStartCodespace, handleStopCodespace, handleDeleteCodespace,
        hext, htok, hscope]
  · intro hscope hact
    refine ⟨?_, ?_, ?_, ?_, ?_, ?_⟩
    · simp [handleListCodespaces, hext, htok, hscope, hact]
    · simp [handleGetCodespace, hext, htok, hscope, hact]
    · simp [handleStartCodespace, hext, htok, hscope, hact]
    · simp [handleStopCodespace, hext, htok, hscope, hact]
    · simp [handleDeleteCodespace, hext, htok, hscope, hact]
    · intro bs hbs hjson
      rcases hjson with hlen | hok
      · simp [handleCreateCodespace, hext, htok, hscope, hact, hbs, hlen]
      · simp [handleCreateCodespace, hext, htok, hscope, hact, hbs, hok]

/-- C5 witness: the action-transport-error clause at a concrete oracle
whose scope fetch grants `codespaces` and whose action call fails. -/
theorem failure_status_mapping_witness :
    handleListCodespaces
      ⟨.ok ⟨200, [("X-OAuth-Scopes", "codespaces")], ""⟩, .error ()⟩ "t" ""
      = (.wrote (httpError "failed to call GitHub" 502), 2) :=
  ((failure_status_mapping
    ⟨.ok ⟨200, [("X-OAuth-Scopes", "codespaces")], ""⟩, .error ()⟩
    "t" "" "t" "n" (.ok "") [] [] (by decide) (by decide)).2.2
    (by decide) rfl).1

/--
C6: For every upstream action call that completes without a transport
error, the response written to the caller has exactly the upstream status
code, exactly the upstream body bytes, and the upstream `Content-Type`
header when present or `application/json` when the upstream omitted it —
for all six handlers (the create handler additionally needs its inbound
body to have been read and accepted).
-/
theorem upstream_pass_through :
    ∀ (u : UpstreamOracle) (authHdr xghHdr token name : String)
      (bodyRead : Except TransportErr String) (resp : HttpResp),
      extractToken authHdr xghHdr = some token → token ≠ "" →
      ensureScopes (GetTokenScopes u.scopeResp) ["codespaces"] = .ok →
      u.actionResp = .ok resp →
      handleListCodespaces u authHdr xghHdr
        = (.wrote ⟨resp.status,
            if headerGet resp.headers "Content-Type" = "" then "application/json"
            else headerGet resp.headers "Content-Type", resp.body⟩, 2) ∧
      handleGetCodespace u authHdr xghHdr name
        = (.wrote ⟨resp.status,
            if headerGet resp.headers "Content-Type" = "" then "application/json"
            else headerGet resp.headers "Content-Type", resp.body⟩, 2) ∧
      handleStartCodespace u authHdr xghHdr name
        = (.wrote ⟨resp.status,
            if headerGet resp.headers "Content-Type" = "" then "application/json"
            else headerGet resp.headers "Content-Type", resp.body⟩, 2) ∧
      handleStopCodespace u authHdr xghHdr name
        = (.wrote ⟨resp.status,
            if headerGet resp.headers "Content-Type" = "" then "application/json"
            else headerGet resp.headers "Content-Type", resp.body⟩, 2) ∧
      handleDeleteCodespace u authHdr xghHdr name
        = (.wrote ⟨resp.status,
            if headerGet resp.headers "Content-Type" = "" then "application/json"
            else headerGet resp.headers "Content-Type", resp.body⟩, 2) ∧
      (∀ bs, bodyRead = .ok bs →
        (bs.data.length = 0 ∨ jsonUnmarshalOk bs = true) →
        handleCreateCodespace u authHdr xghHdr bodyRead
          = (.wrote ⟨resp.status,
              if headerGet resp.headers "Content-Type" = "" then "application/json"
              else headerGet resp.headers "Content-Type", resp.body⟩, 2)) := by
  intro u authHdr xghHdr token name bodyRead resp hext htok hscope hact
  have hwrite : writeProxyResponse resp.status resp.headers resp.body
      = ⟨resp.status,
          if headerGet resp.headers "Content-Type" = "" then "application/json"
          else headerGet resp.headers "Content-Type", resp.body⟩ := by
    unfold writeProxyResponse
    by_cases hct : headerGet resp.headers "Content-Type" = "" <;> simp [hct]
  refine ⟨?_, ?_, ?_, ?_, ?_, ?_⟩
  · simp [handleListCodespaces, hext, htok, hscope, hact, hwrite]
  · simp [handleGetCodespace, hext, htok, hscope, hact, hwrite]
  · simp [handleStartCodespace, hext, htok, hscope, hact, hwrite]
  · simp [handleStopCodespace, hext, htok, hscope, hact, hwrite]
  · simp [handleDeleteCodespace, hext, htok, hscope, hact, hwrite]
  · intro bs hbs hjson
    rcases hjson with hlen | hok
    · simp [handleCreateCodespace, hext, htok, hscope, hact, hbs, hlen, hwrite]
    · simp [handleCreateCodespace, hext, htok, hscope, hact, hbs, hok, hwrite]

/-- C6 witness: an upstream 404 with body `{"message":"not found"}` and a
JSON content type is forwarded verbatim by the get handler. -/
theorem upstream_pass_through_witness :
    handleGetCodespace
      ⟨.ok ⟨200, [("X-OAuth-Scopes", "codespaces")], ""⟩,
       .ok ⟨404, [("Content-Type", "application/json")],
            "\x7b\"message\":\"not found\"\x7d"⟩⟩ "t" "" "my-cs"
      = (.wrote ⟨404, "application/json", "\x7b\"message\":\"not found\"\x7d"⟩, 2) := by
  have h := (upstream_pass_through
    ⟨.ok ⟨200, [("X-OAuth-Scopes", "codespaces")], ""⟩,
     .ok ⟨404, [("Content-Type", "application/json")],
          "\x7b\"message\":\"not found\"\x7d"⟩⟩
    "t" "" "t" "my-cs" (.ok "")
    ⟨404, [("Content-Type", "application/json")], "\x7b\"message\":\"not found\"\x7d"⟩
    (by decide) (by decide) (by decide) rfl).2.1
  simpa using h

/--
C2 counterexample: a create request with the unparsable body `"{not json"`
(valid token, sufficient scopes) does return bad-request 400, but only
after one upstream HTTP call (the scope fetch) has already been issued —
not before any upstream call.
-/
theorem create_bad_json_after_scope_fetch :
    handleCreateCodespace
      ⟨.ok ⟨200, [("X-OAuth-Scopes", "codespaces")], ""⟩, .ok ⟨201, [], ""⟩⟩
      "t" "" (.ok "\x7bnot json")
      = (.wrote (httpError "invalid json body" 400), 1) ∧
    (handleCreateCodespace
      ⟨.ok ⟨200, [("X-OAuth-Scopes", "codespaces")], ""⟩, .ok ⟨201, [], ""⟩⟩
      "t" "" (.ok "\x7bnot json")).2 ≠ 0 := by decide

/--
C2 amended: for every create request whose non-empty body fails to parse as
JSON (with a non-empty token and a passing scope gate, which is checked
first), the handler returns bad-request 400 and never issues the upstream
create action call — the total upstream call count stays at the single
scope-fetch call.
-/
theorem create_bad_json_no_action_call :
    ∀ (u : UpstreamOracle) (authHdr xghHdr token : String) (bs : String),
      extractToken authHdr xghHdr = some token → token ≠ "" →
      ensureScopes (GetTokenScopes u.scopeResp) ["codespaces"] = .ok →
      0 < bs.data.length → jsonUnmarshalOk bs = false →
      handleCreateCodespace u authHdr xghHdr (.ok bs)
        = (.wrote (httpError "invalid json body" 400), 1) := by
  intro u authHdr xghHdr token bs hext htok hscope hlen hjson
  have hlen' : bs.length ≠ 0 := by
    have hd : bs.length = bs.data.length := rfl
    omega
  simp [handleCreateCodespace, hext, htok, hscope, hjson, hlen']

/-- C2 amended witness: the body `"{not json"` at a concrete oracle. -/
theorem create_bad_json_no_action_call_witness :
    handleCreateCodespace
      ⟨.ok ⟨200, [("X-OAuth-Scopes", "codespaces")], ""⟩, .error ()⟩
      "tok" "" (.ok "\x7bnot json")
      = (.wrote (httpError "invalid json body" 400), 1) :=
  create_bad_json_no_action_call
    ⟨.ok ⟨200, [("X-OAuth-Scopes", "codespaces")], ""⟩, .error ()⟩
    "tok" "" "tok" "\x7bnot json" (by decide) (by decide) (by decide)
    (by decide) (by decide)

/-- Helper: on canonical paths the mux dispatches without redirecting. -/
theorem muxRoute_eq_matchPatterns (m path : String)
    (hclean : cleanPath path = path) : muxRoute m path = matchPatterns m path := by
  unfold muxRoute
  by_cases hc : m = "CONNECT"
  · rw [if_pos hc]
  · rw [if_neg hc, if_neg (not_not_intro hclean)]

/--
C7: On the two registered routes, for every canonical inbound path/method
pair the router resolves to exactly one of the six actions (collection GET
→ list, collection POST → create, bare-name GET → get, bare-name DELETE →
delete, POST with `/start` suffix → start, POST with `/stop` suffix →
stop) or else returns method-not-allowed or bad-request; a prefix path
whose remainder after the collection prefix is empty returns bad-request,
and no other path/method combination dispatches an action.
-/
theorem router_resolution :
    muxRoute "GET" "/api/codespaces" = .list ∧
    muxRoute "POST" "/api/codespaces" = .create ∧
    (∀ m, m ≠ "GET" → m ≠ "POST" → muxRoute m "/api/codespaces" = .methodNotAllowed) ∧
    (∀ m, muxRoute m "/api/codespaces/" = .badRequest) ∧
    (∀ m path, cleanPath path = path →
      (path = "/api/codespaces" ∨ goHasPrefix path "/api/codespaces/" = true) →
      muxRoute m path = .methodNotAllowed ∨
      muxRoute m path = .badRequest ∨
      (muxRoute m path = .list ∧ m = "GET" ∧ path = "/api/codespaces") ∨
      (muxRoute m path = .create ∧ m = "POST" ∧ path = "/api/codespaces") ∨
      (∃ name, muxRoute m path = .get name ∧ m = "GET" ∧
        name = goTrimPrefix path "/api/codespaces/" ∧ name ≠ "") ∨
      (∃ name, muxRoute m path = .delete name ∧ m = "DELETE" ∧
        name = goTrimPrefix path "/api/codespaces/" ∧ name ≠ "") ∨
      (∃ name, muxRoute m path = .start name ∧ m = "POST" ∧
        goHasSuffix (goTrimPrefix path "/api/codespaces/") "/start" = true ∧
        name = goTrimSuffix (goTrimPrefix path "/api/codespaces/") "/start") ∨
      (∃ name, muxRoute m path = .stop name ∧ m = "POST" ∧
        goHasSuffix (goTrimPrefix path "/api/codespaces/") "/stop" = true ∧
        name = goTrimSuffix (goTrimPrefix path "/api/codespaces/") "/stop")) ∧
    (∀ path, cleanPath path = path →
      goHasPrefix path "/api/codespaces/" = true →
      goTrimPrefix path "/api/codespaces/" ≠ "" →
      muxRoute "GET" path = .get (goTrimPrefix path "/api/codespaces/") ∧
      muxRoute "DELETE" path = .delete (goTrimPrefix path "/api/codespaces/") ∧
      (goHasSuffix (goTrimPrefix path "/api/codespaces/") "/start" = true →
        muxRoute "POST" path
          = .start (goTrimSuffix (goTrimPrefix path "/api/codespaces/") "/start")) ∧
      (goHasSuffix (goTrimPrefix path "/api/codespaces/") "/stop" = true →
        goHasSuffix (goTrimPrefix path "/api/codespaces/") "/start" = false →
        muxRoute "POST" path
          = .stop (goTrimSuffix (goTrimPrefix path "/api/codespaces/") "/stop"))) := by
  refine ⟨by decide, by decide, ?_, ?_, ?_, ?_⟩
  · intro m hG hP
    rw [muxRoute_eq_matchPatterns m _ (by decide)]
    unfold matchPatterns collectionRoute
    rw [if_pos rfl, if_neg hG, if_neg hP]
  · intro m
    by_cases hc : m = "CONNECT"
    · subst hc; decide
    · unfold muxRoute
      rw [if_neg hc, if_neg (not_not_intro (by decide))]
      rfl
  · intro m path hclean hmatch
    rw [muxRoute_eq_matchPatterns m path hclean]
    by_cases hcoll : path = "/api/codespaces"
    · unfold matchPatterns collectionRoute
      rw [if_pos hcoll]
      by_cases hG : m = "GET"
      · rw [if_pos hG]
        exact Or.inr (Or.inr (Or.inl ⟨rfl, hG, hcoll⟩))
      · rw [if_neg hG]
        by_cases hP : m = "POST"
        · rw [if_pos hP]
          exact Or.inr (Or.inr (Or.inr (Or.inl ⟨rfl, hP, hcoll⟩)))
        · rw [if_neg hP]
          exact Or.inl rfl
    · have hpre : goHasPrefix path "/api/codespaces/" = true :=
        hmatch.resolve_left hcoll
      unfold matchPatterns
      rw [if_neg hcoll, if_pos hpre]
      simp only [itemRoute]
      by_cases h0 : goTrimPrefix path "/api/codespaces/" = ""
      · rw [if_pos h0]
        exact Or.inr (Or.inl rfl)
      · rw [if_neg h0]
        by_cases hstart : (goHasSuffix (goTrimPrefix path "/api/codespaces/") "/start"
            && decide (m = "POST")) = true
        · rw [if_pos hstart]
          rw [Bool.and_eq_true] at hstart
          obtain ⟨hsuf, hm⟩ := hstart
          exact Or.inr (Or.inr (Or.inr (Or.inr (Or.inr (Or.inr (Or.inl
            ⟨_, rfl, of_decide_eq_true hm, hsuf, rfl⟩))))))
        · rw [if_neg hstart]
          by_cases hstop : (goHasSuffix (goTrimPrefix path "/api/codespaces/") "/stop"
              && decide (m = "POST")) = true
          · rw [if_pos hstop]
            rw [Bool.and_eq_true] at hstop
            obtain ⟨hsuf, hm⟩ := hstop
            exact Or.inr (Or.inr (Or.inr (Or.inr (Or.inr (Or.inr (Or.inr
              ⟨_, rfl, of_decide_eq_true hm, hsuf, rfl⟩))))))
          · rw [if_neg hstop]
            by_cases hG : m = "GET"
            · rw [if_pos hG]
              exact Or.inr (Or.inr (Or.inr (Or.inr (Or.inl ⟨_, rfl, hG, rfl, h0⟩))))
            · rw [if_neg hG]
              by_cases hD : m = "DELETE"
              · rw [if_pos hD]
                exact Or.inr (Or.inr (Or.inr (Or.inr (Or.inr (Or.inl
                  ⟨_, rfl, hD, rfl, h0⟩)))))
              · rw [if_neg hD]
                exact Or.inl rfl
  · intro path hclean hpre h0
    have hne : path ≠ "/api/codespaces" := by
      intro he
      rw [he] at hpre
      exact absurd hpre (by decide)
    have hstart_guard : ∀ mm : String, mm ≠ "POST" →
        ¬ (goHasSuffix (goTrimPrefix path "/api/codespaces/") "/start"
          && decide (mm = "POST")) = true := by
      intro mm hmm hcontra
      rw [Bool.and_eq_true] at hcontra
      exact hmm (of_decide_eq_true hcontra.2)
    have hstop_guard : ∀ mm : String, mm ≠ "POST" →
        ¬ (goHasSuffix (goTrimPrefix path "/api/codespaces/") "/stop"
          && decide (mm = "POST")) = true := by
      intro mm hmm hcontra
      rw [Bool.and_eq_true] at hcontra
      exact hmm (of_decide_eq_true hcontra.2)
    refine ⟨?_, ?_, ?_, ?_⟩
    · rw [muxRoute_eq_matchPatterns _ _ hclean]
      unfold matchPatterns
      rw [if_neg hne, if_pos hpre]
      simp only [itemRoute]
      rw [if_neg h0, if_neg (hstart_guard "GET" (by decide)),
        if_neg (hstop_guard "GET" (by decide))]
      simp
    · rw [muxRoute_eq_matchPatterns _ _ hclean]
      unfold matchPatterns
      rw [if_neg hne, if_pos hpre]
      simp only [itemRoute]
      rw [if_neg h0, if_neg (hstart_guard "DELETE" (by decide)),
        if_neg (hstop_guard "DELETE" (by decide))]
      simp
    · intro hsuf
      rw [muxRoute_eq_matchPatterns _ _ hclean]
      unfold matchPatterns
      rw [if_neg hne, if_pos hpre]
      simp only [itemRoute]
      rw [if_neg h0]
      simp [hsuf]
    · intro hsuf hnostart
      rw [muxRoute_eq_matchPatterns _ _ hclean]
      unfold matchPatterns
      rw [if_neg hne, if_pos hpre]
      simp only [itemRoute]
      rw [if_neg h0]
      simp [hsuf, hnostart]

/-- C7 witness: the total-resolution clause at `GET /api/codespaces`. -/
theorem router_resolution_witness :
    muxRoute "GET" "/api/codespaces" = .methodNotAllowed ∨
    muxRoute "GET" "/api/codespaces" = .badRequest ∨
    (muxRoute "GET" "/api/codespaces" = .list ∧ "GET" = "GET" ∧
      "/api/codespaces" = "/api/codespaces") ∨
    (muxRoute "GET" "/api/codespaces" = .create ∧ "GET" = "POST" ∧
      "/api/codespaces" = "/api/codespaces") ∨
    (∃ name, muxRoute "GET" "/api/codespaces" = .get name ∧ "GET" = "GET" ∧
      name = goTrimPrefix "/api/codespaces" "/api/codespaces/" ∧ name ≠ "") ∨
    (∃ name, muxRoute "GET" "/api/codespaces" = .delete name ∧ "GET" = "DELETE" ∧
      name = goTrimPrefix "/api/codespaces" "/api/codespaces/" ∧ name ≠ "") ∨
    (∃ name, muxRoute "GET" "/api/codespaces" = .start name ∧ "GET" = "POST" ∧
      goHasSuffix (goTrimPrefix "/api/codespaces" "/api/codespaces/") "/start" = true ∧
      name = goTrimSuffix (goTrimPrefix "/api/codespaces" "/api/codespaces/") "/start") ∨
    (∃ name, muxRoute "GET" "/api/codespaces" = .stop name ∧ "GET" = "POST" ∧
      goHasSuffix (goTrimPrefix "/api/codespaces" "/api/codespaces/") "/stop" = true ∧
      name = goTrimSuffix (goTrimPrefix "/api/codespaces" "/api/codespaces/") "/stop") :=
  router_resolution.2.2.2.2.1 "GET" "/api/codespaces" (by decide) (Or.inl rfl)

/-- Helper: inversion of `matchPatterns` at a `start` dispatch. -/
theorem matchPatterns_start_inv (m path name : String)
    (h : matchPatterns m path = .start name) :
    m = "POST" ∧
    goHasPrefix path "/api/codespaces/" = true ∧
    goTrimPrefix path "/api/codespaces/" ≠ "" ∧
    goHasSuffix (goTrimPrefix path "/api/codespaces/") "/start" = true ∧
    name = goTrimSuffix (goTrimPrefix path "/api/codespaces/") "/start" := by
  unfold matchPatterns at h
  by_cases hcoll : path = "/api/codespaces"
  · rw [if_pos hcoll] at h
    unfold collectionRoute at h
    by_cases hG : m = "GET"
    · rw [if_pos hG] at h; exact RouteResult.noConfusion h
    · rw [if_neg hG] at h
      by_cases hP : m = "POST"
      · rw [if_pos hP] at h; exact RouteResult.noConfusion h
      · rw [if_neg hP] at h; exact RouteResult.noConfusion h
  · rw [if_neg hcoll] at h
    by_cases hpre : goHasPrefix path "/api/codespaces/" = true
    · rw [if_pos hpre] at h
      simp only [itemRoute] at h
      by_cases h0 : goTrimPrefix path "/api/codespaces/" = ""
      · rw [if_pos h0] at h; exact RouteResult.noConfusion h
      · rw [if_neg h0] at h
        by_cases hstart : (goHasSuffix (goTrimPrefix path "/api/codespaces/") "/start"
            && decide (m = "POST")) = true
        · rw [if_pos hstart] at h
          rw [Bool.and_eq_true] at hstart
          obtain ⟨hsuf, hm⟩ := hstart
          injection h with hname
          exact ⟨of_decide_eq_true hm, hpre, h0, hsuf, hname.symm⟩
        · rw [if_neg hstart] at h
          by_cases hstop : (goHasSuffix (goTrimPrefix path "/api/codespaces/") "/stop"
              && decide (m = "POST")) = true
          · rw [if_pos hstop] at h; exact RouteResult.noConfusion h
          · rw [if_neg hstop] at h
            by_cases hG : m = "GET"
            · rw [if_pos hG] at h; exact RouteResult.noConfusion h
            · rw [if_neg hG] at h
              by_cases hD : m = "DELETE"
              · rw [if_pos hD] at h; exact RouteResult.noConfusion h
              · rw [if_neg hD] at h; exact RouteResult.noConfusion h
    · rw [if_neg hpre] at h; exact RouteResult.noConfusion h

/-- Helper: inversion of `matchPatterns` at a `stop` dispatch. -/
theorem matchPatterns_stop_inv (m path name : String)
    (h : matchPatterns m path = .stop name) :
    m = "POST" ∧
    goHasPrefix path "/api/codespaces/" = true ∧
    goTrimPrefix path "/api/codespaces/" ≠ "" ∧
    goHasSuffix (goTrimPrefix path "/api/codespaces/") "/stop" = true ∧
    name = goTrimSuffix (goTrimPrefix path "/api/codespaces/") "/stop" := by
  unfold matchPatterns at h
  by_cases hcoll : path = "/api/codespaces"
  · rw [if_pos hcoll] at h
    unfold collectionRoute at h
    by_cases hG : m = "GET"
    · rw [if_pos hG] at h; exact RouteResult.noConfusion h
    · rw [if_neg hG] at h
      by_cases hP : m = "POST"
      · rw [if_pos hP] at h; exact RouteResult.noConfusion h
      · rw [if_neg hP] at h; exact RouteResult.noConfusion h
  · rw [if_neg hcoll] at h
    by_cases hpre : goHasPrefix path "/api/codespaces/" = true
    · rw [if_pos hpre] at h
      simp only [itemRoute] at h
      by_cases h0 : goTrimPrefix path "/api/codespaces/" = ""
      · rw [if_pos h0] at h; exact RouteResult.noConfusion h
      · rw [if_neg h0] at h
        by_cases hstart : (goHasSuffix (goTrimPrefix path "/api/codespaces/") "/start"
            && decide (m = "POST")) = true
        · rw [if_pos hstart] at h; exact RouteResult.noConfusion h
        · rw [if_neg hstart] at h
          by_cases hstop : (goHasSuffix (goTrimPrefix path "/api/codespaces/") "/stop"
              && decide (m = "POST")) = true
          · rw [if_pos hstop] at h
            rw [Bool.and_eq_true] at hstop
            obtain ⟨hsuf, hm⟩ := hstop
            injection h with hname
            exact ⟨of_decide_eq_true hm, hpre, h0, hsuf, hname.symm⟩
          · rw [if_neg hstop] at h
            by_cases hG : m = "GET"
            · rw [if_pos hG] at h; exact RouteResult.noConfusion h
            · rw [if_neg hG] at h
              by_cases hD : m = "DELETE"
              · rw [if_pos hD] at h; exact RouteResult.noConfusion h
              · rw [if_neg hD] at h; exact RouteResult.noConfusion h
    · rw [if_neg hpre] at h; exact RouteResult.noConfusion h

/-- Helper: a matched prefix decomposes the path. -/
theorem trimPrefix_data (path : String)
    (hpre : goHasPrefix path "/api/codespaces/" = true) :
    path.data = "/api/codespaces/".data ++ (goTrimPrefix path "/api/codespaces/").data := by
  unfold goTrimPrefix
  rw [if_pos hpre]
  obtain ⟨t, ht⟩ := List.isPrefixOf_iff_prefix.mp hpre
  conv_lhs => rw [← ht]
  rw [show ((path.data.drop "/api/codespaces/".data.length).asString).data
      = path.data.drop "/api/codespaces/".data.length from rfl, ← ht, List.drop_left]

/-- Helper: a trimmed suffix leaving nothing means the string was the
suffix itself. -/
theorem trimSuffix_eq_empty (rest suf : String) (hsuf : goHasSuffix rest suf = true)
    (h0 : goTrimSuffix rest suf = "") : rest = suf := by
  unfold goTrimSuffix at h0
  rw [if_pos hsuf] at h0
  have hdata : rest.data.take (rest.data.length - suf.data.length) = [] :=
    congrArg String.data h0
  obtain ⟨t, ht⟩ := List.isSuffixOf_iff_suffix.mp hsuf
  have hlen : rest.data.length = t.length + suf.data.length := by
    rw [← ht, List.length_append]
  rcases List.take_eq_nil_iff.mp hdata with hz | hnil
  · have ht0 : t = [] := List.length_eq_zero.mp (by omega)
    exact String.ext (by rw [← ht, ht0, List.nil_append])
  · rw [hnil] at ht
    obtain ⟨ht0, hs0⟩ := List.append_eq_nil.mp ht
    exact String.ext (by rw [hnil, hs0])

/--
C3: Start and Stop are dispatched only for a POST whose path, after the
collection prefix, ends in `/start` or `/stop` respectively, with the
suffix stripped before name extraction, and (the mux having canonicalised
the path) the extracted resource name is never empty; concretely,
`POST /api/codespaces/my-cs/start` resolves to Start with name `"my-cs"`,
and POST on the bare-name path `/api/codespaces/my-cs` resolves to
method-not-allowed.
-/
theorem start_stop_routing :
    muxRoute "POST" "/api/codespaces/my-cs/start" = .start "my-cs" ∧
    muxRoute "POST" "/api/codespaces/my-cs" = .methodNotAllowed ∧
    (∀ m path name, muxRoute m path = .start name →
      m = "POST" ∧
      goHasSuffix (goTrimPrefix path "/api/codespaces/") "/start" = true ∧
      name = goTrimSuffix (goTrimPrefix path "/api/codespaces/") "/start" ∧
      name ≠ "") ∧
    (∀ m path name, muxRoute m path = .stop name →
      m = "POST" ∧
      goHasSuffix (goTrimPrefix path "/api/codespaces/") "/stop" = true ∧
      name = goTrimSuffix (goTrimPrefix path "/api/codespaces/") "/stop" ∧
      name ≠ "") := by
  refine ⟨by decide, by decide, ?_, ?_⟩
  · intro m path name h
    unfold muxRoute at h
    by_cases hc : m = "CONNECT"
    · rw [if_pos hc] at h
      obtain ⟨hm, _⟩ := matchPatterns_start_inv m path name h
      exact absurd (hc.symm.trans hm) (by decide)
    · rw [if_neg hc] at h
      by_cases hred : cleanPath path ≠ path
      · rw [if_pos hred] at h; exact RouteResult.noConfusion h
      · rw [if_neg hred] at h
        have hclean : cleanPath path = path := not_not.mp hred
        obtain ⟨hm, hpre, h0, hsuf, hname⟩ := matchPatterns_start_inv m path name h
        refine ⟨hm, hsuf, hname, ?_⟩
        intro hname0
        have hrest : goTrimPrefix path "/api/codespaces/" = "/start" :=
          trimSuffix_eq_empty _ _ hsuf (hname.symm.trans hname0)
        have hpath : path = "/api/codespaces//start" :=
          String.ext (by rw [trimPrefix_data path hpre, hrest]; rfl)
        rw [hpath] at hclean
        exact absurd hclean (by decide)
  · intro m path name h
    unfold muxRoute at h
    by_cases hc : m = "CONNECT"
    · rw [if_pos hc] at h
      obtain ⟨hm, _⟩ := matchPatterns_stop_inv m path name h
      exact absurd (hc.symm.trans hm) (by decide)
    · rw [if_neg hc] at h
      by_cases hred : cleanPath path ≠ path
      · rw [if_pos hred] at h; exact RouteResult.noConfusion h
      · rw [if_neg hred] at h
        have hclean : cleanPath path = path := not_not.mp hred
        obtain ⟨hm, hpre, h0, hsuf, hname⟩ := matchPatterns_stop_inv m path name h
        refine ⟨hm, hsuf, hname, ?_⟩
        intro hname0
        have hrest : goTrimPrefix path "/api/codespaces/" = "/stop" :=
          trimSuffix_eq_empty _ _ hsuf (hname.symm.trans hname0)
        have hpath : path = "/api/codespaces//stop" :=
          String.ext (by rw [trimPrefix_data path hpre, hrest]; rfl)
        rw [hpath] at hclean
        exact absurd hclean (by decide)

/-- C3 witness: the start-inversion clause at `POST /api/codespaces/my-cs/start`. -/
theorem start_stop_routing_witness :
    ("POST" : String) = "POST" ∧
    goHasSuffix (goTrimPrefix "/api/codespaces/my-cs/start" "/api/codespaces/")
      "/start" = true ∧
    ("my-cs" : String)
      = goTrimSuffix (goTrimPrefix "/api/codespaces/my-cs/start" "/api/codespaces/")
          "/start" ∧
    ("my-cs" : String) ≠ "" :=
  start_stop_routing.2.2.1 "POST" "/api/codespaces/my-cs/start" "my-cs" (by decide)

end Ghmcp
